/-
Verification of the filter-and-aggregate pipeline of the CRUT operations
dashboard (src/v7.py) against its specification.

The pandas/Dash program is shallowly embedded:
  * a dataframe is a `Dataset`: a list of column names plus a list of rows;
  * a cell of one of the three identifying columns (DEPOT_NAME, CITY_NAME,
    ROUTE_NAME) is a `Cell`: missing (NaN), a string, or a non-string
    (numeric) value — mirroring an object-dtype pandas column;
  * a dropdown selection is `Sel := Option (List (Option String))`: Dash
    delivers `None`, `[]`, `[None]` or a list of selected values;
  * a pandas column access `frame[c]` on a frame whose columns lack `c`
    raises `KeyError c`; the three callbacks therefore return
    `Except String _`, erroring with the missing column's name at exactly
    the accesses the source performs, in source order;
  * `groupby(k)` (default `sort=True`) lists the distinct keys in sorted
    order; `groupby(k, sort=False)` lists them in first-appearance order
    (`uniqueKeys`); `value_counts` sorts by count descending;
    `Series.idxmax/idxmin` pick the first row achieving the max/min
    (`firstMaxP` / `firstMinP`);
  * integers are `Int`, fares and normalized fractions are `Rat`.
-/
import Mathlib

namespace V7

/-! ## Generic list helpers (pandas `unique`, first-appearance order) -/

/-- `uniqueKeysAux seen l`: the elements of `l` not in `seen`, first
appearance order, each once — the recursion pandas `Series.unique` and
`groupby(sort=False)` perform. -/
def uniqueKeysAux [DecidableEq α] (seen : List α) : List α → List α
  | [] => []
  | a :: t => if a ∈ seen then uniqueKeysAux seen t else a :: uniqueKeysAux (a :: seen) t

/-- Distinct elements of `l` in first-appearance order (pandas `unique`). -/
def uniqueKeys [DecidableEq α] (l : List α) : List α := uniqueKeysAux [] l

/-- Python `str.strip()`: drop whitespace from both ends. -/
def pyStrip (s : String) : String :=
  ⟨((s.data.dropWhile Char.isWhitespace).reverse.dropWhile Char.isWhitespace).reverse⟩

/-- Lexicographic `<=` on code-point lists: the order Python's `sorted()`
and pandas' sorted group keys use on strings. -/
def charListLe : List Char → List Char → Bool
  | [], _ => true
  | _ :: _, [] => false
  | a :: as, b :: bs =>
    if a.toNat < b.toNat then true
    else if b.toNat < a.toNat then false
    else charListLe as bs

/-- Python `<=` on strings: lexicographic by Unicode code point. -/
def pyLe (a b : String) : Prop := charListLe a.data b.data = true

instance : DecidableRel pyLe :=
  fun a b => inferInstanceAs (Decidable (charListLe a.data b.data = true))

theorem charListLe_refl : ∀ as, charListLe as as = true
  | [] => rfl
  | a :: as => by
    unfold charListLe
    rw [if_neg (lt_irrefl _), if_neg (lt_irrefl _)]
    exact charListLe_refl as

theorem pyLe_refl (a : String) : pyLe a a := charListLe_refl a.data

theorem charListLe_total : ∀ as bs, charListLe as bs = true ∨ charListLe bs as = true
  | [], _ => Or.inl rfl
  | _ :: _, [] => Or.inr rfl
  | a :: as, b :: bs => by
    unfold charListLe
    rcases Nat.lt_trichotomy a.toNat b.toNat with h | h | h
    · left; rw [if_pos h]
    · rw [if_neg (by omega), if_neg (by omega), if_neg (by omega), if_neg (by omega)]
      exact charListLe_total as bs
    · right; rw [if_pos h]

theorem charListLe_trans : ∀ as bs cs, charListLe as bs = true →
    charListLe bs cs = true → charListLe as cs = true
  | [], _, _, _, _ => rfl
  | _ :: _, [], _, hab, _ => by cases hab
  | _ :: _, _ :: _, [], _, hbc => by cases hbc
  | a :: as, b :: bs, c :: cs, hab, hbc => by
    unfold charListLe at hab hbc ⊢
    by_cases h1 : a.toNat < b.toNat <;> by_cases h2 : b.toNat < c.toNat
    · rw [if_pos (by omega)]
    · rw [if_neg h2] at hbc
      by_cases h3 : c.toNat < b.toNat
      · rw [if_pos h3] at hbc; cases hbc
      · rw [if_pos (by omega)]
    · rw [if_neg h1] at hab
      by_cases h4 : b.toNat < a.toNat
      · rw [if_pos h4] at hab; cases hab
      · rw [if_pos (by omega)]
    · rw [if_neg h1] at hab
      rw [if_neg h2] at hbc
      by_cases h4 : b.toNat < a.toNat
      · rw [if_pos h4] at hab; cases hab
      · by_cases h3 : c.toNat < b.toNat
        · rw [if_pos h3] at hbc; cases hbc
        · rw [if_neg h4] at hab
          rw [if_neg h3] at hbc
          rw [if_neg (by omega), if_neg (by omega)]
          exact charListLe_trans as bs cs hab hbc

instance : IsTotal String pyLe := ⟨fun a b => charListLe_total a.data b.data⟩

instance : IsTrans String pyLe := ⟨fun a b c => charListLe_trans a.data b.data c.data⟩

/-- `str(n).zfill(2)` for the 3-hour bucket bounds of v7.py line 11. -/
def zfill2 (n : Nat) : String := if n < 10 then "0" ++ toString n else toString n

/-! ## Data model (v7.py lines 6–16) -/

/-- A cell of an object-dtype pandas column: NaN, a string, or a non-string
(numeric) value. -/
inductive Cell where
  | na
  | str (s : String)
  | num (n : Int)
  deriving Repr, DecidableEq

/-- `pd.notna` on a cell. -/
def Cell.isNotNA : Cell → Bool
  | .na => false
  | _ => true

/-- Python `str(value)` on a cell (`str(nan) = "nan"`, only reached behind
`pd.notna` guards in the source). -/
def Cell.toStr : Cell → String
  | .na => "nan"
  | .str s => s
  | .num n => toString n

/-- One transaction record. `hour` is the value pandas derives from
TICKET_TIME_STAMP at load (v7.py line 9); the raw timestamp itself feeds no
other computation and is abstracted to that derived hour. -/
structure Row where
  depotName : Cell
  cityName : Cell
  routeName : Cell
  passengerCount : Int
  fareCollected : Rat
  paymentMode : String
  hour : Nat
  passengerType : Option String
  deriving Repr, DecidableEq

/-- `Time_Interval` (v7.py line 10): the hour floored to a multiple of 3. -/
def timeInterval (h : Nat) : Nat := (h / 3) * 3

/-- `Time_Interval_Label` (v7.py line 11), e.g. `"06-09 hrs"`. -/
def timeIntervalLabel (h : Nat) : String :=
  zfill2 (timeInterval h) ++ "-" ++ zfill2 (timeInterval h + 3) ++ " hrs"

/-- The Time_Interval_Label column value of a row. -/
def rowLabel (r : Row) : String := timeIntervalLabel r.hour

/-- A dataframe: its column names (governing which accesses raise KeyError)
and its rows. -/
structure Dataset where
  cols : List String
  rows : List Row
  deriving Repr, DecidableEq

/-- Columns of a successfully loaded frame (v7.py lines 7–11): the CSV
columns — `Passenger Type` only when the CSV has it — plus the three
derived columns. -/
def loadedCols (hasPT : Bool) : List String :=
  ["DEPOT_NAME", "CITY_NAME", "ROUTE_NAME", "PASSENGER_COUNT", "FARE_COLLECTED",
   "PAYMENT_MODE", "TICKET_TIME_STAMP"]
  ++ (if hasPT then ["Passenger Type"] else [])
  ++ ["Hour", "Time_Interval", "Time_Interval_Label"]

/-- A successfully loaded frame with the given rows. -/
def mkDf (rows : List Row) (hasPT : Bool) : Dataset := ⟨loadedCols hasPT, rows⟩

/-- The FileNotFoundError fallback frame (v7.py line 16): zero rows and
exactly the eight raw column names — the derived columns of lines 9–11 are
NOT among them, because the `except` branch skips those lines. -/
def fallbackDf : Dataset :=
  ⟨["DEPOT_NAME", "CITY_NAME", "ROUTE_NAME", "PASSENGER_COUNT", "FARE_COLLECTED",
    "PAYMENT_MODE", "TICKET_TIME_STAMP", "Passenger Type"], []⟩

/-! ## Selections and filtering (shared by the three callbacks) -/

/-- A Dash multi-dropdown value: absent, or a list of selected values
(`[None]` can occur). -/
abbrev Sel := Option (List (Option String))

/-- Truthiness test `selected and selected != [None]` guarding every filter
(v7.py lines 175, 177, 202, 204, 206, 284, 286, 288). -/
def selActive : Sel → Bool
  | none => false
  | some l => decide (l ≠ [] ∧ l ≠ [none])

/-- `Series.isin(values)` on one cell: a string cell matches a selected
string, a NaN cell matches a selected `None`, a non-string cell matches no
string selection. -/
def cellMatches (c : Cell) (l : List (Option String)) : Bool :=
  match c with
  | .str s => decide (some s ∈ l)
  | .na => decide ((none : Option String) ∈ l)
  | .num _ => false

/-- One guarded filter step
`if sel and sel != [None]: frame = frame[frame[col].isin(sel)]`. -/
def filterDim (sel : Sel) (get : Row → Cell) (rows : List Row) : List Row :=
  match sel with
  | none => rows
  | some l => if l = [] ∨ l = [none] then rows
              else rows.filter (fun r => cellMatches (get r) l)

/-- The depot-then-city filter prefix shared by all three callbacks. -/
def filterCityDepot (sd sc : Sel) (rows : List Row) : List Row :=
  filterDim sc Row.cityName (filterDim sd Row.depotName rows)

/-- The full depot/city/route filter of `update_dashboard` and
`update_area_chart` (v7.py lines 200–207, 282–289). -/
def filterAll (sd sc sr : Sel) (rows : List Row) : List Row :=
  filterDim sr Row.routeName (filterCityDepot sd sc rows)

/-! ## Aggregations -/

/-- Sum of PASSENGER_COUNT over the rows of one Time_Interval_Label group. -/
def labelSum (rows : List Row) (l : String) : Int :=
  ((rows.filter (fun r => rowLabel r = l)).map Row.passengerCount).sum

/-- `groupby('Time_Interval_Label')['PASSENGER_COUNT'].sum()` (v7.py line
216, default `sort=True`): group keys in ascending label order, each with
its group sum. -/
def sortedLabelSummary (rows : List Row) : List (String × Int) :=
  (List.insertionSort pyLe (uniqueKeys (rows.map rowLabel))).map
    (fun k => (k, labelSum rows k))

/-- `Series.idxmax` on a label-indexed sum series: scan left to right,
replacing the champion only on a strictly greater value, so the first
maximum wins. -/
def firstMaxP (p : String × Int) : List (String × Int) → String × Int
  | [] => p
  | q :: qs => if p.2 < q.2 then firstMaxP q qs else firstMaxP p qs

/-- `Series.idxmin`: the first minimum wins. -/
def firstMinP (p : String × Int) : List (String × Int) → String × Int
  | [] => p
  | q :: qs => if q.2 < p.2 then firstMinP q qs else firstMinP p qs

/-- Peak and off-peak labels (v7.py lines 213–219): `"N/A"` defaults,
overwritten from the grouped summary when the filtered frame is nonempty. -/
def peakOffPeak (rows : List Row) : String × String :=
  if rows.isEmpty then ("N/A", "N/A")
  else
    match sortedLabelSummary rows with
    | [] => ("N/A", "N/A")
    | p :: ps => ((firstMaxP p ps).1, (firstMinP p ps).1)

/-- `Series.value_counts()` (v7.py line 250): count per distinct value,
sorted by count descending (stable over first-appearance key order). -/
def valueCounts (l : List String) : List (String × Nat) :=
  List.insertionSort (fun a b => b.2 ≤ a.2)
    ((uniqueKeys l).map (fun v => (v, l.count v)))

/-- `Series.value_counts(normalize=True)` (v7.py line 266) over the
non-missing values: each distinct value's count divided by the number of
non-missing values. -/
def valueCountsNormalize (l : List String) : List (String × Rat) :=
  List.insertionSort (fun a b => b.2 ≤ a.2)
    ((uniqueKeys l).map (fun v => (v, (l.count v : Rat) / (l.length : Rat))))

/-- `groupby('Time_Interval_Label', sort=False)` then
`sort_values('Time_Interval_Label')` (v7.py lines 256–257): the time-band
series in ascending label order. -/
def temporalSeries (rows : List Row) : List (String × Int) :=
  List.insertionSort (fun a b => pyLe a.1 b.1)
    ((uniqueKeys (rows.map rowLabel)).map (fun k => (k, labelSum rows k)))

/-- Sum of PASSENGER_COUNT over the rows of one Hour group. -/
def hourSum (rows : List Row) (h : Nat) : Int :=
  ((rows.filter (fun r => r.hour = h)).map Row.passengerCount).sum

/-- `groupby('Hour')['PASSENGER_COUNT'].sum()` (v7.py line 294, default
`sort=True`): hours ascending, each with its group sum. -/
def hourSeries (rows : List Row) : List (Nat × Int) :=
  (List.insertionSort (· ≤ ·) (uniqueKeys (rows.map Row.hour))).map
    (fun h => (h, hourSum rows h))

/-! ## Rendered values -/

/-- A plotly figure, reduced to its chart kind, title and data; `emptyFig`
is the bare `{}` dict update_dashboard uses when the Passenger Type column
is absent (v7.py line 264). -/
inductive Figure where
  | pie (title : String) (data : List (String × Rat))
  | bar (title : String) (data : List (String × Int))
  | area (title : String) (data : List (Nat × Int))
  | emptyFig
  deriving Repr, DecidableEq

/-- The data of the four KPI cards (v7.py lines 223–247). -/
structure Cards where
  totalRidership : Int
  totalRevenue : Rat
  peakHour : String
  offPeakHour : String
  deriving Repr, DecidableEq

/-- The four output slots of the main callback, named by the Output ids it
declares (v7.py lines 191–194): Dash assigns the returned tuple to these
slots positionally. -/
structure DashOutputs where
  cardsContainer : Cards
  pieChartTransactionType : Figure
  temporalChartRidership : Figure
  passengerTypeChart : Figure
  deriving Repr, DecidableEq

/-! ## Column access and the three callbacks -/

/-- `frame[c]`: succeeds when the frame has column `c`, otherwise raises
`KeyError c`. -/
def requireCol (D : Dataset) (c : String) : Except String Unit :=
  if c ∈ D.cols then .ok () else .error c

/-- The column accesses of the three guarded filter steps, in source order:
each step touches its column only when its selection is active. -/
def checkFilterCols (D : Dataset) (sd sc sr : Sel) : Except String Unit := do
  if selActive sd then requireCol D "DEPOT_NAME" else pure ()
  if selActive sc then requireCol D "CITY_NAME" else pure ()
  if selActive sr then requireCol D "ROUTE_NAME" else pure ()

/-- The sorted trimmed route list of `set_route_options` (v7.py lines
183–185): `sorted([str(r).strip() for r in frame['ROUTE_NAME'].unique() if
pd.notna(r)])` — dedup on the RAW values first, then strip, then sort. -/
def routesOfRows (rows : List Row) : List String :=
  List.insertionSort pyLe
    ((uniqueKeys (rows.map Row.routeName)).filterMap
      (fun c => if c.isNotNA then some (pyStrip c.toStr) else none))

/-- `set_route_options` (v7.py lines 172–187): filter by depot then city
(never by route), return `([], [])` on an empty subset, otherwise the
route options (label = value) and an empty reset value. -/
def set_route_options (D : Dataset) (sd sc : Sel) :
    Except String (List (String × String) × List String) := do
  if selActive sd then requireCol D "DEPOT_NAME" else pure ()
  if selActive sc then requireCol D "CITY_NAME" else pure ()
  let rows := filterCityDepot sd sc D.rows
  if rows.isEmpty then
    pure ([], [])
  else
    requireCol D "ROUTE_NAME"
    let routes := routesOfRows rows
    pure (routes.map (fun i => (i, i)), [])

/-- The passenger-type figure (v7.py lines 263–269): a pie of the
normalized value counts when the frame has the Passenger Type column,
otherwise the bare `{}`. -/
def passengerTypeFigure (D : Dataset) (rows : List Row) : Figure :=
  if "Passenger Type" ∈ D.cols then
    Figure.pie "Passenger Type Distribution"
      (valueCountsNormalize (rows.filterMap Row.passengerType))
  else Figure.emptyFig

/-- `update_dashboard` (v7.py lines 199–271). Column accesses happen in
source order; the grouped peak/off-peak summary of line 216 runs only on a
nonempty frame. The final `return cards, temporal_chart, pie_chart,
passenger_type_chart` (line 271) assigns the TEMPORAL bar chart to the
`pie-chart-transaction-type` slot and the payment-mode PIE to the
`temporal-chart-ridership` slot, exactly as the source's return order
does against its declared Output list. -/
def update_dashboard (D : Dataset) (sd sc sr : Sel) : Except String DashOutputs := do
  checkFilterCols D sd sc sr
  let rows := filterAll sd sc sr D.rows
  requireCol D "PASSENGER_COUNT"
  let totalRidership : Int := (rows.map Row.passengerCount).sum
  requireCol D "FARE_COLLECTED"
  let totalRevenue : Rat := (rows.map Row.fareCollected).sum
  if rows.isEmpty then pure () else requireCol D "Time_Interval_Label"
  let pk := peakOffPeak rows
  requireCol D "PAYMENT_MODE"
  let pieChart := Figure.pie "Transaction Type Distribution"
    ((valueCounts (rows.map Row.paymentMode)).map (fun p => (p.1, (p.2 : Rat))))
  requireCol D "Time_Interval_Label"
  let temporalChart := Figure.bar "Ridership by 3-Hour Interval" (temporalSeries rows)
  let ptFig := passengerTypeFigure D rows
  pure { cardsContainer := ⟨totalRidership, totalRevenue, pk.1, pk.2⟩
         pieChartTransactionType := temporalChart
         temporalChartRidership := pieChart
         passengerTypeChart := ptFig }

/-- `update_area_chart` (v7.py lines 281–302): filter by the selections,
keep rows with `start_hour <= Hour < end_hour`, group by Hour and sum. -/
def update_area_chart (D : Dataset) (sd sc sr : Sel) (timeRange : Nat × Nat) :
    Except String Figure := do
  checkFilterCols D sd sc sr
  let rows := filterAll sd sc sr D.rows
  requireCol D "Hour"
  let wrows := rows.filter (fun r => timeRange.1 ≤ r.hour ∧ r.hour < timeRange.2)
  requireCol D "PASSENGER_COUNT"
  pure (Figure.area
    ("Ridership Distribution from " ++ toString timeRange.1 ++ ":00 to "
      ++ toString timeRange.2 ++ ":00")
    (hourSeries wrows))

/-! ## Module-level dropdown options (v7.py lines 19–30) -/

/-- The depot/city option cleaning: `dropna().unique()`, keep string values
whose strip is nonempty, label = value = the stripped string. -/
def cleanOptions (cells : List Cell) : List (String × String) :=
  (uniqueKeys (cells.filter Cell.isNotNA)).filterMap
    (fun c => match c with
      | .str s => if pyStrip s = "" then none else some (pyStrip s, pyStrip s)
      | _ => none)

/-- `depot_options` (v7.py lines 19–23). -/
def depot_options (D : Dataset) : List (String × String) :=
  cleanOptions (D.rows.map Row.depotName)

/-- `city_options` (v7.py lines 26–30). -/
def city_options (D : Dataset) : List (String × String) :=
  cleanOptions (D.rows.map Row.cityName)

/-! ## Process state (for the no-mutation claim) -/

/-- The module-level state: the one dataframe `df` loaded at import time. -/
structure AppState where
  df : Dataset
  deriving Repr, DecidableEq

/-- `df.copy()` — under value semantics a copy is the same value. -/
def Dataset.copy (D : Dataset) : Dataset := D

/-- `set_route_options` as the process runs it: read the global `df`, copy
it (v7.py line 173), compute; the source contains no write to `df`, so the
state passes through. -/
def set_route_options_st (st : AppState) (sd sc : Sel) :
    Except String (List (String × String) × List String) × AppState :=
  (set_route_options st.df.copy sd sc, st)

/-- `update_dashboard` as the process runs it (copy at v7.py line 200). -/
def update_dashboard_st (st : AppState) (sd sc sr : Sel) :
    Except String DashOutputs × AppState :=
  (update_dashboard st.df.copy sd sc sr, st)

/-- `update_area_chart` as the process runs it (copy at v7.py line 282). -/
def update_area_chart_st (st : AppState) (sd sc sr : Sel) (tr : Nat × Nat) :
    Except String Figure × AppState :=
  (update_area_chart st.df.copy sd sc sr tr, st)

/-- Modelled from the spec: the spec's tie-break policy for peak/off-peak —
"first group encountered in group-iteration order (stable, not re-sorted)"
— i.e. the same max/min-index lookup but over the groups in
first-appearance order instead of the sorted order pandas produces. -/
def peakOffPeakSpecEncounterOrder (rows : List Row) : String × String :=
  if rows.isEmpty then ("N/A", "N/A")
  else
    match (uniqueKeys (rows.map rowLabel)).map (fun k => (k, labelSum rows k)) with
    | [] => ("N/A", "N/A")
    | p :: ps => ((firstMaxP p ps).1, (firstMinP p ps).1)

/-! ## Lemmas about the list helpers -/

theorem mem_uniqueKeysAux [DecidableEq α] (l : List α) (seen : List α) (x : α) :
    x ∈ uniqueKeysAux seen l ↔ x ∈ l ∧ x ∉ seen := by
  induction l generalizing seen with
  | nil => simp [uniqueKeysAux]
  | cons a t ih =>
    rw [uniqueKeysAux]
    by_cases h : a ∈ seen
    · rw [if_pos h, ih]
      constructor
      · exact fun ⟨h1, h2⟩ => ⟨List.mem_cons_of_mem _ h1, h2⟩
      · rintro ⟨h1, h2⟩
        rcases List.mem_cons.mp h1 with rfl | h1
        · exact absurd h h2
        · exact ⟨h1, h2⟩
    · rw [if_neg h]
      constructor
      · intro hmem
        rcases List.mem_cons.mp hmem with rfl | hmem
        · exact ⟨List.mem_cons_self _ _, h⟩
        · obtain ⟨h1, h2⟩ := (ih _).mp hmem
          exact ⟨List.mem_cons_of_mem _ h1, fun hx => h2 (List.mem_cons_of_mem _ hx)⟩
      · rintro ⟨h1, h2⟩
        rcases List.mem_cons.mp h1 with rfl | h1
        · exact List.mem_cons_self _ _
        · by_cases hxa : x = a
          · subst hxa; exact List.mem_cons_self _ _
          · refine List.mem_cons_of_mem _ ((ih _).mpr ⟨h1, fun hx => ?_⟩)
            rcases List.mem_cons.mp hx with h' | h'
            · exact hxa h'
            · exact h2 h'

theorem mem_uniqueKeys [DecidableEq α] (l : List α) (x : α) :
    x ∈ uniqueKeys l ↔ x ∈ l := by
  simp [uniqueKeys, mem_uniqueKeysAux]

theorem nodup_uniqueKeysAux [DecidableEq α] (l : List α) (seen : List α) :
    (uniqueKeysAux seen l).Nodup := by
  induction l generalizing seen with
  | nil => simp [uniqueKeysAux]
  | cons a t ih =>
    by_cases h : a ∈ seen
    · simpa [uniqueKeysAux, h] using ih seen
    · rw [uniqueKeysAux, if_neg h]
      refine List.nodup_cons.mpr ⟨fun hmem => ?_, ih (a :: seen)⟩
      exact ((mem_uniqueKeysAux t (a :: seen) a).mp hmem).2 (List.mem_cons_self a seen)

theorem nodup_uniqueKeys [DecidableEq α] (l : List α) : (uniqueKeys l).Nodup :=
  nodup_uniqueKeysAux l []

theorem sum_map_add_nat (K : List α) (f g : α → Nat) :
    (K.map fun k => f k + g k).sum = (K.map f).sum + (K.map g).sum := by
  induction K with
  | nil => simp
  | cons a t ih => simp only [List.map_cons, List.sum_cons, ih]; omega

theorem sum_map_ite_eq_count [DecidableEq α] (a : α) (K : List α) :
    (K.map fun k => if k = a then 1 else 0).sum = K.count a := by
  induction K with
  | nil => simp
  | cons b t ih =>
    rw [List.map_cons, List.sum_cons, ih]
    rcases eq_or_ne b a with rfl | h
    · rw [if_pos rfl, List.count_cons_self]; omega
    · rw [if_neg h, List.count_cons_of_ne (Ne.symm h)]; omega

/-- Summing the multiplicities of `l`'s values over any duplicate-free list
of keys covering `l` recovers `l`'s length. -/
theorem sum_count_cover [DecidableEq α] (l K : List α) (hn : K.Nodup)
    (hc : ∀ x ∈ l, x ∈ K) : (K.map fun k => l.count k).sum = l.length := by
  induction l with
  | nil => simp
  | cons a t ih =>
    have hpt : ∀ k, (a :: t).count k = t.count k + if k = a then 1 else 0 := by
      intro k
      rcases eq_or_ne k a with rfl | h
      · rw [if_pos rfl, List.count_cons_self]
      · rw [if_neg h, List.count_cons_of_ne h, Nat.add_zero]
    simp only [hpt]
    rw [sum_map_add_nat, sum_map_ite_eq_count,
      ih (fun x hx => hc x (List.mem_cons_of_mem _ hx)),
      List.count_eq_one_of_mem hn (hc a (List.mem_cons_self _ _))]
    simp

theorem sum_map_div_rat (K : List α) (f : α → Rat) (c : Rat) :
    (K.map fun k => f k / c).sum = (K.map f).sum / c := by
  induction K with
  | nil => simp
  | cons a t ih => simp only [List.map_cons, List.sum_cons, ih, add_div]

theorem pairwise_lt_of_sorted_nodup [LinearOrder α] (L : List α)
    (hs : L.Sorted (· ≤ ·)) (hn : L.Nodup) : L.Pairwise (· < ·) := by
  induction L with
  | nil => exact List.Pairwise.nil
  | cons a t ih =>
    obtain ⟨h1, h2⟩ := List.pairwise_cons.mp hs
    obtain ⟨h3, h4⟩ := List.pairwise_cons.mp hn
    exact List.pairwise_cons.mpr
      ⟨fun b hb => lt_of_le_of_ne (h1 b hb) (h3 b hb), ih h2 h4⟩

/-! ## Lemmas about the idxmax/idxmin scans -/

theorem firstMaxP_mem (p : String × Int) (l : List (String × Int)) :
    firstMaxP p l = p ∨ firstMaxP p l ∈ l := by
  induction l generalizing p with
  | nil => exact Or.inl rfl
  | cons q qs ih =>
    simp only [firstMaxP]
    split_ifs with h
    · rcases ih q with h' | h'
      · exact Or.inr (by rw [h']; exact List.mem_cons_self q qs)
      · exact Or.inr (List.mem_cons_of_mem _ h')
    · rcases ih p with h' | h'
      · exact Or.inl h'
      · exact Or.inr (List.mem_cons_of_mem _ h')

theorem firstMaxP_ge (p : String × Int) (l : List (String × Int)) :
    p.2 ≤ (firstMaxP p l).2 ∧ ∀ q ∈ l, q.2 ≤ (firstMaxP p l).2 := by
  induction l generalizing p with
  | nil => simp [firstMaxP]
  | cons q qs ih =>
    simp only [firstMaxP]
    split_ifs with h
    · obtain ⟨ih1, ih2⟩ := ih q
      refine ⟨le_trans (le_of_lt h) ih1, fun x hx => ?_⟩
      rcases List.mem_cons.mp hx with rfl | hx
      · exact ih1
      · exact ih2 x hx
    · obtain ⟨ih1, ih2⟩ := ih p
      refine ⟨ih1, fun x hx => ?_⟩
      rcases List.mem_cons.mp hx with rfl | hx
      · exact le_trans (not_lt.mp h) ih1
      · exact ih2 x hx

theorem firstMaxP_eq_or_lt (p : String × Int) (l : List (String × Int)) :
    firstMaxP p l = p ∨ p.2 < (firstMaxP p l).2 := by
  induction l generalizing p with
  | nil => exact Or.inl rfl
  | cons q qs ih =>
    simp only [firstMaxP]
    split_ifs with h
    · exact Or.inr (lt_of_lt_of_le h (firstMaxP_ge q qs).1)
    · exact ih p

/-- On a list whose first components are strictly increasing, the
replace-only-on-strictly-greater scan lands on the earliest maximum: any
entry tying the maximum value has a first component at least the result's. -/
theorem firstMaxP_first (p : String × Int) (l : List (String × Int))
    (hp : (p :: l).Pairwise (fun a b => pyLe a.1 b.1 ∧ a.1 ≠ b.1)) :
    ∀ q ∈ p :: l, q.2 = (firstMaxP p l).2 → pyLe (firstMaxP p l).1 q.1 := by
  induction l generalizing p with
  | nil =>
    intro q hq _
    rcases List.mem_cons.mp hq with rfl | hq
    · exact pyLe_refl _
    · exact absurd hq (List.not_mem_nil q)
  | cons q0 qs ih =>
    intro q hq hq2
    simp only [firstMaxP] at hq2 ⊢
    split_ifs at hq2 ⊢ with h
    · rcases List.mem_cons.mp hq with rfl | hq'
      · exfalso
        have h1 := (firstMaxP_ge q0 qs).1
        omega
      · exact ih q0 (List.Pairwise.of_cons hp) q hq' hq2
    · have hsub : (p :: qs).Sublist (p :: q0 :: qs) :=
        List.Sublist.cons₂ p (List.sublist_cons_self q0 qs)
      have hp' : (p :: qs).Pairwise (fun a b => pyLe a.1 b.1 ∧ a.1 ≠ b.1) := hp.sublist hsub
      rcases List.mem_cons.mp hq with rfl | hq'
      · exact ih _ hp' _ (List.mem_cons_self _ _) hq2
      rcases List.mem_cons.mp hq' with rfl | hq''
      · have hle : (firstMaxP p qs).2 ≤ p.2 := by omega
        rcases firstMaxP_eq_or_lt p qs with he | hlt
        · rw [he]
          exact ((List.pairwise_cons.mp hp).1 q (List.mem_cons_self _ _)).1
        · exact absurd hlt (not_lt.mpr hle)
      · exact ih p hp' q (List.mem_cons_of_mem _ hq'') hq2

theorem firstMinP_mem (p : String × Int) (l : List (String × Int)) :
    firstMinP p l = p ∨ firstMinP p l ∈ l := by
  induction l generalizing p with
  | nil => exact Or.inl rfl
  | cons q qs ih =>
    simp only [firstMinP]
    split_ifs with h
    · rcases ih q with h' | h'
      · exact Or.inr (by rw [h']; exact List.mem_cons_self q qs)
      · exact Or.inr (List.mem_cons_of_mem _ h')
    · rcases ih p with h' | h'
      · exact Or.inl h'
      · exact Or.inr (List.mem_cons_of_mem _ h')

theorem firstMinP_le (p : String × Int) (l : List (String × Int)) :
    (firstMinP p l).2 ≤ p.2 ∧ ∀ q ∈ l, (firstMinP p l).2 ≤ q.2 := by
  induction l generalizing p with
  | nil => simp [firstMinP]
  | cons q qs ih =>
    simp only [firstMinP]
    split_ifs with h
    · obtain ⟨ih1, ih2⟩ := ih q
      refine ⟨le_trans ih1 (le_of_lt h), fun x hx => ?_⟩
      rcases List.mem_cons.mp hx with rfl | hx
      · exact ih1
      · exact ih2 x hx
    · obtain ⟨ih1, ih2⟩ := ih p
      refine ⟨ih1, fun x hx => ?_⟩
      rcases List.mem_cons.mp hx with rfl | hx
      · exact le_trans ih1 (not_lt.mp h)
      · exact ih2 x hx

theorem firstMinP_eq_or_gt (p : String × Int) (l : List (String × Int)) :
    firstMinP p l = p ∨ (firstMinP p l).2 < p.2 := by
  induction l generalizing p with
  | nil => exact Or.inl rfl
  | cons q qs ih =>
    simp only [firstMinP]
    split_ifs with h
    · exact Or.inr (lt_of_le_of_lt (firstMinP_le q qs).1 h)
    · exact ih p

theorem firstMinP_first (p : String × Int) (l : List (String × Int))
    (hp : (p :: l).Pairwise (fun a b => pyLe a.1 b.1 ∧ a.1 ≠ b.1)) :
    ∀ q ∈ p :: l, q.2 = (firstMinP p l).2 → pyLe (firstMinP p l).1 q.1 := by
  induction l generalizing p with
  | nil =>
    intro q hq _
    rcases List.mem_cons.mp hq with rfl | hq
    · exact pyLe_refl _
    · exact absurd hq (List.not_mem_nil q)
  | cons q0 qs ih =>
    intro q hq hq2
    simp only [firstMinP] at hq2 ⊢
    split_ifs at hq2 ⊢ with h
    · rcases List.mem_cons.mp hq with rfl | hq'
      · exfalso
        have h1 := (firstMinP_le q0 qs).1
        omega
      · exact ih q0 (List.Pairwise.of_cons hp) q hq' hq2
    · have hsub : (p :: qs).Sublist (p :: q0 :: qs) :=
        List.Sublist.cons₂ p (List.sublist_cons_self q0 qs)
      have hp' : (p :: qs).Pairwise (fun a b => pyLe a.1 b.1 ∧ a.1 ≠ b.1) := hp.sublist hsub
      rcases List.mem_cons.mp hq with rfl | hq'
      · exact ih _ hp' _ (List.mem_cons_self _ _) hq2
      rcases List.mem_cons.mp hq' with rfl | hq''
      · have hle : p.2 ≤ (firstMinP p qs).2 := by omega
        rcases firstMinP_eq_or_gt p qs with he | hlt
        · rw [he]
          exact ((List.pairwise_cons.mp hp).1 q (List.mem_cons_self _ _)).1
        · exact absurd hlt (not_lt.mpr hle)
      · exact ih p hp' q (List.mem_cons_of_mem _ hq'') hq2

theorem firstMaxP_ge_all (p : String × Int) (l : List (String × Int)) :
    ∀ q ∈ p :: l, q.2 ≤ (firstMaxP p l).2 := by
  intro q hq
  rcases List.mem_cons.mp hq with rfl | hq
  · exact (firstMaxP_ge _ l).1
  · exact (firstMaxP_ge p l).2 q hq

theorem firstMinP_le_all (p : String × Int) (l : List (String × Int)) :
    ∀ q ∈ p :: l, (firstMinP p l).2 ≤ q.2 := by
  intro q hq
  rcases List.mem_cons.mp hq with rfl | hq
  · exact (firstMinP_le _ l).1
  · exact (firstMinP_le p l).2 q hq

theorem firstMaxP_mem_cons (p : String × Int) (l : List (String × Int)) :
    firstMaxP p l ∈ p :: l := by
  rcases firstMaxP_mem p l with h | h
  · rw [h]; exact List.mem_cons_self _ _
  · exact List.mem_cons_of_mem _ h

theorem firstMinP_mem_cons (p : String × Int) (l : List (String × Int)) :
    firstMinP p l ∈ p :: l := by
  rcases firstMinP_mem p l with h | h
  · rw [h]; exact List.mem_cons_self _ _
  · exact List.mem_cons_of_mem _ h

/-! ## Lemmas about the grouped summaries -/

theorem mem_sortedLabelSummary (rows : List Row) (x : String × Int) :
    x ∈ sortedLabelSummary rows ↔
      x.1 ∈ rows.map rowLabel ∧ x.2 = labelSum rows x.1 := by
  unfold sortedLabelSummary
  constructor
  · intro hx
    obtain ⟨k, hk, hfk⟩ := List.mem_map.mp hx
    have hk2 : k ∈ rows.map rowLabel :=
      (mem_uniqueKeys _ _).mp ((List.mem_insertionSort _).mp hk)
    cases hfk
    exact ⟨hk2, rfl⟩
  · rintro ⟨h1, h2⟩
    have hk : x.1 ∈ List.insertionSort pyLe (uniqueKeys (rows.map rowLabel)) :=
      (List.mem_insertionSort _).mpr ((mem_uniqueKeys _ _).mpr h1)
    have hx : x = (x.1, labelSum rows x.1) := Prod.ext rfl h2
    rw [hx]
    exact List.mem_map_of_mem _ hk

theorem pairwise_and {R S : α → α → Prop} (L : List α)
    (h1 : L.Pairwise R) (h2 : L.Pairwise S) :
    L.Pairwise (fun a b => R a b ∧ S a b) := by
  induction L with
  | nil => exact List.Pairwise.nil
  | cons a t ih =>
    obtain ⟨h3, h4⟩ := List.pairwise_cons.mp h1
    obtain ⟨h5, h6⟩ := List.pairwise_cons.mp h2
    exact List.pairwise_cons.mpr ⟨fun b hb => ⟨h3 b hb, h5 b hb⟩, ih h4 h6⟩

theorem pairwise_sortedLabelSummary (rows : List Row) :
    (sortedLabelSummary rows).Pairwise (fun a b => pyLe a.1 b.1 ∧ a.1 ≠ b.1) := by
  unfold sortedLabelSummary
  rw [List.pairwise_map]
  exact @pairwise_and String pyLe (fun a b => a ≠ b) _
    (List.sorted_insertionSort pyLe _)
    ((List.perm_insertionSort pyLe _).nodup_iff.mpr (nodup_uniqueKeys _))

theorem peakOffPeak_eq_of_summary (rows : List Row) (p : String × Int)
    (ps : List (String × Int)) (hne : rows ≠ [])
    (hs : sortedLabelSummary rows = p :: ps) :
    peakOffPeak rows = ((firstMaxP p ps).1, (firstMinP p ps).1) := by
  have hie : rows.isEmpty = false := by
    cases rows with
    | nil => exact absurd rfl hne
    | cons a t => rfl
  unfold peakOffPeak
  rw [hie, hs]
  rfl

/-- The denominator-clearing identity behind `value_counts(normalize=True)`:
over any nonempty value list the normalized counts sum to exactly 1. -/
theorem sum_valueCountsNormalize (l : List String) (h : l ≠ []) :
    ((valueCountsNormalize l).map Prod.snd).sum = 1 := by
  unfold valueCountsNormalize
  rw [List.Perm.sum_eq (List.Perm.map Prod.snd (List.perm_insertionSort _ _)), List.map_map]
  have h1 : (Prod.snd ∘ fun v : String => (v, (l.count v : Rat) / (l.length : Rat)))
      = fun v => (l.count v : Rat) / (l.length : Rat) := rfl
  rw [h1, sum_map_div_rat]
  have h2 : ((uniqueKeys l).map fun v => ((l.count v : Nat) : Rat))
      = ((uniqueKeys l).map fun v => l.count v).map (fun n : Nat => (n : Rat)) := by
    rw [List.map_map]; rfl
  rw [h2, ← Nat.cast_list_sum,
    sum_count_cover l (uniqueKeys l) (nodup_uniqueKeys l)
      (fun x hx => (mem_uniqueKeys l x).mpr hx)]
  refine div_self ?_
  exact Nat.cast_ne_zero.mpr (fun hlen => h (List.length_eq_zero.mp hlen))

/-! ## Reduction of the callbacks on a fully loaded frame -/

theorem update_dashboard_mkDf (rows : List Row) (hPT : Bool) (sd sc sr : Sel) :
    update_dashboard (mkDf rows hPT) sd sc sr = .ok
      { cardsContainer := ⟨((filterAll sd sc sr rows).map Row.passengerCount).sum,
          ((filterAll sd sc sr rows).map Row.fareCollected).sum,
          (peakOffPeak (filterAll sd sc sr rows)).1,
          (peakOffPeak (filterAll sd sc sr rows)).2⟩
        pieChartTransactionType := Figure.bar "Ridership by 3-Hour Interval"
          (temporalSeries (filterAll sd sc sr rows))
        temporalChartRidership := Figure.pie "Transaction Type Distribution"
          ((valueCounts ((filterAll sd sc sr rows).map Row.paymentMode)).map
            (fun p => (p.1, (p.2 : Rat))))
        passengerTypeChart := passengerTypeFigure (mkDf rows hPT)
          (filterAll sd sc sr rows) } := by
  cases hPT <;>
  · unfold update_dashboard checkFilterCols
    dsimp only [mkDf]
    repeat' split
    all_goals rfl

theorem update_area_chart_mkDf (rows : List Row) (hPT : Bool) (sd sc sr : Sel)
    (s e : Nat) :
    update_area_chart (mkDf rows hPT) sd sc sr (s, e) = .ok
      (Figure.area
        ("Ridership Distribution from " ++ toString s ++ ":00 to "
          ++ toString e ++ ":00")
        (hourSeries ((filterAll sd sc sr rows).filter
          (fun r => s ≤ r.hour ∧ r.hour < e)))) := by
  cases hPT <;>
  · unfold update_area_chart checkFilterCols
    dsimp only [mkDf]
    repeat' split
    all_goals rfl

theorem set_route_options_mkDf (rows : List Row) (hPT : Bool) (sd sc : Sel) :
    set_route_options (mkDf rows hPT) sd sc = .ok
      ((routesOfRows (filterCityDepot sd sc rows)).map (fun i => (i, i)), []) := by
  cases hPT <;>
  · unfold set_route_options
    dsimp only [mkDf]
    repeat' split
    all_goals
      first
      | rfl
      | (rename_i h4
         rw [List.isEmpty_iff.mp h4]
         rfl)

theorem pairwise_hourSeries (rows : List Row) :
    (hourSeries rows).Pairwise (fun a b => a.1 < b.1) := by
  unfold hourSeries
  rw [List.pairwise_map]
  exact pairwise_lt_of_sorted_nodup _ (List.sorted_insertionSort _ _)
    ((List.perm_insertionSort _ _).nodup_iff.mpr (nodup_uniqueKeys _))

theorem mem_hourSeries (rows : List Row) (h : Nat) (v : Int) :
    (h, v) ∈ hourSeries rows ↔ (∃ r ∈ rows, r.hour = h) ∧ v = hourSum rows h := by
  unfold hourSeries
  constructor
  · intro hx
    obtain ⟨k, hk, hfk⟩ := List.mem_map.mp hx
    have hk2 := (mem_uniqueKeys _ _).mp ((List.mem_insertionSort _).mp hk)
    obtain ⟨r, hr, hrk⟩ := List.mem_map.mp hk2
    cases hfk
    exact ⟨⟨r, hr, hrk⟩, rfl⟩
  · rintro ⟨⟨r, hr, rfl⟩, rfl⟩
    exact List.mem_map_of_mem _ ((List.mem_insertionSort _).mpr
      ((mem_uniqueKeys _ _).mpr (List.mem_map_of_mem _ hr)))

theorem sorted_routesOfRows (rows : List Row) :
    (routesOfRows rows).Sorted pyLe := by
  unfold routesOfRows
  exact List.sorted_insertionSort _ _

theorem mem_routesOfRows (rows : List Row) (s : String) :
    s ∈ routesOfRows rows ↔
      ∃ c ∈ rows.map Row.routeName, c.isNotNA = true ∧ s = pyStrip c.toStr := by
  unfold routesOfRows
  constructor
  · intro hmem
    obtain ⟨c, hc, hfc⟩ := List.mem_filterMap.mp ((List.mem_insertionSort _).mp hmem)
    cases hna : c.isNotNA with
    | false => rw [hna] at hfc; simp at hfc
    | true =>
      rw [hna] at hfc
      simp only [if_pos rfl] at hfc
      exact ⟨c, (mem_uniqueKeys _ _).mp hc, hna, (Option.some.inj hfc).symm⟩
  · rintro ⟨c, hcL, hna, rfl⟩
    refine (List.mem_insertionSort _).mpr
      (List.mem_filterMap.mpr ⟨c, (mem_uniqueKeys _ _).mpr hcL, ?_⟩)
    rw [hna]
    simp

theorem mem_cleanOptions (cells : List Cell) (p : String × String)
    (hp : p ∈ cleanOptions cells) :
    p.1 ≠ "" ∧ ∃ t, Cell.str t ∈ cells ∧ p = (pyStrip t, pyStrip t) := by
  unfold cleanOptions at hp
  obtain ⟨c, hc, hgc⟩ := List.mem_filterMap.mp hp
  have hcells : c ∈ cells :=
    (List.mem_filter.mp ((mem_uniqueKeys _ _).mp hc)).1
  cases c with
  | na => cases hgc
  | num n => cases hgc
  | str t =>
    dsimp only at hgc
    by_cases hb : pyStrip t = ""
    · rw [if_pos hb] at hgc; cases hgc
    · rw [if_neg hb] at hgc
      cases hgc
      exact ⟨hb, t, hcells, rfl⟩

/-! ## Concrete rows for the witnesses and counterexamples -/

/-- A sample loaded transaction row (hour 7, count 10, fare 5). -/
def sampleRow : Row :=
  ⟨.str "D1", .str "C1", .str "R1", 10, 5, "Cash", 7, some "Adult"⟩

/-- A second sample row in a different 3-hour band (hour 1, count 5). -/
def sampleRow2 : Row :=
  ⟨.str "D2", .str "C2", .str "R2", 5, 3, "Card", 1, some "Child"⟩

/-- Tied-sum rows: band "06-09 hrs" is encountered first, band "00-03 hrs"
is lexicographically smaller; both groups sum to 5. -/
def tieRowA : Row := ⟨.str "D1", .str "C1", .str "R1", 5, 2, "Cash", 7, none⟩

def tieRowB : Row := ⟨.str "D1", .str "C1", .str "R1", 5, 2, "Cash", 1, none⟩

/-- Rows whose raw route names differ only by surrounding whitespace. -/
def dupRouteRowA : Row := ⟨.str "D1", .str "C1", .str " R1", 1, 1, "Cash", 7, none⟩

def dupRouteRowB : Row := ⟨.str "D1", .str "C1", .str "R1", 1, 1, "Cash", 8, none⟩

/-- A row whose Passenger Type cell is missing (NaN). -/
def nullPTRow : Row := ⟨.str "D1", .str "C1", .str "R1", 1, 1, "Cash", 7, none⟩

/-- Rows at the boundary hours of the default `[6, 18)` window. -/
def boundaryRow6 : Row := ⟨.str "D1", .str "C1", .str "R1", 4, 1, "Cash", 6, none⟩

def boundaryRow18 : Row := ⟨.str "D1", .str "C1", .str "R1", 9, 1, "Cash", 18, none⟩

/-- A row with a whitespace-only route name and blank depot/city cells. -/
def blankRow : Row := ⟨.str "   ", .str "  ", .str "  ", 2, 1, "Cash", 7, none⟩

/-! ## The claims -/

/-- C1: the missing-file fallback does NOT let the dashboard degrade
gracefully. The fallback frame (v7.py line 16) carries only the eight raw
CSV columns, not the derived ones, so `update_dashboard` raises
KeyError 'Time_Interval_Label' at the unguarded groupby of line 256 and
`update_area_chart` raises KeyError 'Hour' at line 292 — instead of
completing with zero totals, "N/A" labels and empty series. -/
theorem fallback_dataset_schema_error :
    update_dashboard fallbackDf none none none = .error "Time_Interval_Label" ∧
    update_area_chart fallbackDf none none none (6, 18) = .error "Hour" :=
  ⟨rfl, rfl⟩

/-- C2: on any selection (evaluated here on a one-row dataset with no
selection) the main callback's return order (v7.py line 271:
`return cards, temporal_chart, pie_chart, passenger_type_chart`) fills the
declared `pie-chart-transaction-type` slot with the time-band BAR chart and
the `temporal-chart-ridership` slot with the payment-mode PIE — the second
and third outputs are swapped relative to the declared output slots. -/
theorem dashboard_output_slots_swapped :
    ∃ out, update_dashboard (mkDf [sampleRow] true) none none none = .ok out ∧
      out.pieChartTransactionType
        = Figure.bar "Ridership by 3-Hour Interval" [("06-09 hrs", 10)] ∧
      out.temporalChartRidership
        = Figure.pie "Transaction Type Distribution" [("Cash", 1)] :=
  ⟨_, rfl, rfl, rfl⟩

/-- C3 counterexample: with two tied groups, "06-09 hrs" encountered first
and "00-03 hrs" lexicographically smaller, the code picks "00-03 hrs" for
both peak and off-peak (pandas `groupby` sorts group keys before the
idxmax/idxmin lookup), while the claim's first-group-encountered tie-break
predicts "06-09 hrs". -/
theorem peak_tiebreak_not_encounter_order :
    peakOffPeak [tieRowA, tieRowB] = ("00-03 hrs", "00-03 hrs") ∧
    peakOffPeakSpecEncounterOrder [tieRowA, tieRowB] = ("06-09 hrs", "06-09 hrs") ∧
    ("00-03 hrs" : String) ≠ "06-09 hrs" := by
  refine ⟨rfl, rfl, ?_⟩
  decide

/-- C3 (amended): for a non-empty filtered subset the peak label is a
maximum-sum time-band label and the off-peak label a minimum-sum one, and
ties are broken towards the lexicographically smallest label (pandas
`groupby` sorts the group keys, default `sort=True`, and `idxmax`/`idxmin`
take the first extremum of that sorted summary) — not towards the first
group in encounter order; on an empty subset both labels are "N/A". -/
theorem peak_offpeak_max_min_lex_tiebreak (rows : List Row) :
    (rows = [] → peakOffPeak rows = ("N/A", "N/A")) ∧
    (rows ≠ [] →
      ((peakOffPeak rows).1 ∈ rows.map rowLabel ∧
        (∀ l ∈ rows.map rowLabel,
          labelSum rows l ≤ labelSum rows (peakOffPeak rows).1) ∧
        (∀ l ∈ rows.map rowLabel,
          labelSum rows l = labelSum rows (peakOffPeak rows).1 →
            pyLe (peakOffPeak rows).1 l)) ∧
      ((peakOffPeak rows).2 ∈ rows.map rowLabel ∧
        (∀ l ∈ rows.map rowLabel,
          labelSum rows (peakOffPeak rows).2 ≤ labelSum rows l) ∧
        (∀ l ∈ rows.map rowLabel,
          labelSum rows l = labelSum rows (peakOffPeak rows).2 →
            pyLe (peakOffPeak rows).2 l))) := by
  constructor
  · rintro rfl; rfl
  · intro hne
    obtain ⟨r0, rs, hrw⟩ := List.exists_cons_of_ne_nil hne
    have hlab : rowLabel r0 ∈ rows.map rowLabel := by
      rw [hrw]; exact List.mem_map_of_mem _ (List.mem_cons_self _ _)
    have hpairmem : (rowLabel r0, labelSum rows (rowLabel r0)) ∈ sortedLabelSummary rows :=
      (mem_sortedLabelSummary rows _).mpr ⟨hlab, rfl⟩
    obtain ⟨p, ps, hs⟩ := List.exists_cons_of_ne_nil (List.ne_nil_of_mem hpairmem)
    have hpo := peakOffPeak_eq_of_summary rows p ps hne hs
    have hpw : (p :: ps).Pairwise (fun a b => pyLe a.1 b.1 ∧ a.1 ≠ b.1) := by
      rw [← hs]; exact pairwise_sortedLabelSummary rows
    have hMmem : firstMaxP p ps ∈ sortedLabelSummary rows := by
      rw [hs]; exact firstMaxP_mem_cons p ps
    obtain ⟨hM1, hM2⟩ := (mem_sortedLabelSummary rows _).mp hMmem
    have hNmem : firstMinP p ps ∈ sortedLabelSummary rows := by
      rw [hs]; exact firstMinP_mem_cons p ps
    obtain ⟨hN1, hN2⟩ := (mem_sortedLabelSummary rows _).mp hNmem
    rw [hpo]
    refine ⟨⟨hM1, ?_, ?_⟩, hN1, ?_, ?_⟩
    · intro l hl
      have hin : (l, labelSum rows l) ∈ p :: ps := by
        rw [← hs]; exact (mem_sortedLabelSummary rows _).mpr ⟨hl, rfl⟩
      have h1 := firstMaxP_ge_all p ps _ hin
      rw [← hM2]
      exact h1
    · intro l hl heq
      have hin : (l, labelSum rows l) ∈ p :: ps := by
        rw [← hs]; exact (mem_sortedLabelSummary rows _).mpr ⟨hl, rfl⟩
      have h2 : (l, labelSum rows l).2 = (firstMaxP p ps).2 := by
        rw [hM2]; exact heq
      exact firstMaxP_first p ps hpw _ hin h2
    · intro l hl
      have hin : (l, labelSum rows l) ∈ p :: ps := by
        rw [← hs]; exact (mem_sortedLabelSummary rows _).mpr ⟨hl, rfl⟩
      have h1 := firstMinP_le_all p ps _ hin
      rw [← hN2]
      exact h1
    · intro l hl heq
      have hin : (l, labelSum rows l) ∈ p :: ps := by
        rw [← hs]; exact (mem_sortedLabelSummary rows _).mpr ⟨hl, rfl⟩
      have h2 : (l, labelSum rows l).2 = (firstMinP p ps).2 := by
        rw [hN2]; exact heq
      exact firstMinP_first p ps hpw _ hin h2

/-- Instantiation of the amended C3 claim on a concrete two-row dataset. -/
theorem peak_offpeak_max_min_lex_tiebreak_witness :
    (peakOffPeak [sampleRow, sampleRow2]).1 ∈ [sampleRow, sampleRow2].map rowLabel ∧
    (peakOffPeak [sampleRow, sampleRow2]).2 ∈ [sampleRow, sampleRow2].map rowLabel :=
  ⟨(((peak_offpeak_max_min_lex_tiebreak [sampleRow, sampleRow2]).2 (by decide)).1).1,
   (((peak_offpeak_max_min_lex_tiebreak [sampleRow, sampleRow2]).2 (by decide)).2).1⟩

/-- C4 counterexample: `set_route_options` dedups the RAW route values
(`unique()` runs before `strip()`, v7.py line 184), so raw values " R1" and
"R1" both survive and trim to the same name — the returned option list
contains a duplicate, contradicting "sorted, deduplicated, trimmed". -/
theorem route_options_trimmed_duplicates :
    set_route_options (mkDf [dupRouteRowA, dupRouteRowB] true) none none
      = .ok ([("R1", "R1"), ("R1", "R1")], []) ∧
    ¬ ([("R1", "R1"), ("R1", "R1")] : List (String × String)).Nodup := by
  refine ⟨rfl, by decide⟩

/-- C4 (amended): `set_route_options` applies only the city and depot
filters and returns, sorted ascending, the trimmed forms of the distinct
RAW non-missing route values of the subset — so the sequence is sorted and
trimmed but may contain duplicates when distinct raw values trim to the
same name; an empty subset yields an empty option list. -/
theorem route_options_sorted_from_subset (rows : List Row) (hPT : Bool) (sd sc : Sel) :
    set_route_options (mkDf rows hPT) sd sc
      = .ok ((routesOfRows (filterCityDepot sd sc rows)).map (fun i => (i, i)), []) ∧
    (routesOfRows (filterCityDepot sd sc rows)).Sorted pyLe ∧
    (∀ s, s ∈ routesOfRows (filterCityDepot sd sc rows) ↔
      ∃ c ∈ (filterCityDepot sd sc rows).map Row.routeName,
        c.isNotNA = true ∧ s = pyStrip c.toStr) :=
  ⟨set_route_options_mkDf rows hPT sd sc,
   sorted_routesOfRows _,
   fun s => mem_routesOfRows _ s⟩

/-- Instantiation of the amended C4 claim: the duplicated-route dataset's
option values are sorted, and every value arises from a raw route of the
(unfiltered) subset. -/
theorem route_options_sorted_from_subset_witness :
    (routesOfRows (filterCityDepot none none [dupRouteRowA, dupRouteRowB])).Sorted pyLe :=
  (route_options_sorted_from_subset [dupRouteRowA, dupRouteRowB] true none none).2.1

/-- C5 counterexample: with the `Passenger Type` column present and a
nonempty one-row subset whose only passenger-type cell is missing,
`value_counts(normalize=True)` drops the NaN and yields an EMPTY
distribution — the shares sum to 0, not 1, although the subset is
nonempty and the field is present. -/
theorem passenger_type_all_missing_sum_zero :
    ∃ out, update_dashboard (mkDf [nullPTRow] true) none none none = .ok out ∧
      out.passengerTypeChart = Figure.pie "Passenger Type Distribution" [] ∧
      ¬ ((([] : List (String × Rat)).map Prod.snd).sum = 1) :=
  ⟨_, rfl, rfl, by decide⟩

/-- C5 (amended): with the Passenger Type column present the distribution
is the normalized value counts of the NON-MISSING passenger types, and its
fractions sum to exactly 1 whenever the filtered subset has at least one
non-missing passenger type (an all-missing nonempty subset yields an
empty, zero-sum distribution); with the column absent the output is the
bare `{}` marker, distinct from every pie figure. -/
theorem passenger_type_shares_sum_one (rows : List Row) :
    (passengerTypeFigure (mkDf rows true) rows
      = Figure.pie "Passenger Type Distribution"
          (valueCountsNormalize (rows.filterMap Row.passengerType)) ∧
     ((∃ r ∈ rows, (Row.passengerType r).isSome) →
       ((valueCountsNormalize (rows.filterMap Row.passengerType)).map Prod.snd).sum
         = 1)) ∧
    (passengerTypeFigure (mkDf rows false) rows = Figure.emptyFig ∧
     ∀ t d, Figure.emptyFig ≠ Figure.pie t d) := by
  refine ⟨⟨rfl, ?_⟩, rfl, ?_⟩
  · rintro ⟨r, hr, hsome⟩
    apply sum_valueCountsNormalize
    obtain ⟨v, hv⟩ := Option.isSome_iff_exists.mp hsome
    exact List.ne_nil_of_mem (List.mem_filterMap.mpr ⟨r, hr, hv⟩)
  · intro t d h
    cases h

/-- Instantiation of the amended C5 claim on a two-row dataset with
passenger types "Adult" and "Child". -/
theorem passenger_type_shares_sum_one_witness :
    ((valueCountsNormalize ([sampleRow, sampleRow2].filterMap Row.passengerType)).map
      Prod.snd).sum = 1 :=
  (passenger_type_shares_sum_one [sampleRow, sampleRow2]).1.2
    ⟨sampleRow, List.mem_cons_self _ _, rfl⟩

/-- C6: with an empty or absent selection on all three dimensions the
filter stage of the callbacks passes the row set through unchanged — an
empty selection is "no restriction", not "reject all". -/
theorem empty_selections_filter_identity (rows : List Row) (sd sc sr : Sel)
    (hd : sd = none ∨ sd = some []) (hc : sc = none ∨ sc = some [])
    (hr : sr = none ∨ sr = some []) :
    filterAll sd sc sr rows = rows := by
  have hstep : ∀ (s : Sel) (g : Row → Cell) (l : List Row),
      (s = none ∨ s = some []) → filterDim s g l = l := by
    rintro s g l (rfl | rfl)
    · rfl
    · rfl
  rw [filterAll, filterCityDepot, hstep sd _ _ hd, hstep sc _ _ hc, hstep sr _ _ hr]

/-- Instantiation of C6 at a concrete one-row dataset with a mix of absent
and empty selections. -/
theorem empty_selections_filter_identity_witness :
    filterAll none (some []) none [sampleRow] = [sampleRow] :=
  empty_selections_filter_identity [sampleRow] none (some []) none
    (Or.inl rfl) (Or.inr rfl) (Or.inl rfl)

/-- C7: `update_area_chart` keeps exactly the filtered rows with
`start <= hour < end` (start-inclusive, end-exclusive), groups them by raw
hour with passenger counts summed, and returns the series ordered by
strictly increasing hour: a pair `(h, v)` is in the series iff some
surviving row has hour `h` and `v` is the window's passenger-count sum at
`h`. -/
theorem hour_window_series_exact (rows : List Row) (hPT : Bool) (sd sc sr : Sel)
    (s e : Nat) :
    (update_area_chart (mkDf rows hPT) sd sc sr (s, e) = .ok
      (Figure.area
        ("Ridership Distribution from " ++ toString s ++ ":00 to "
          ++ toString e ++ ":00")
        (hourSeries ((filterAll sd sc sr rows).filter
          (fun r => s ≤ r.hour ∧ r.hour < e))))) ∧
    ((hourSeries ((filterAll sd sc sr rows).filter
        (fun r => s ≤ r.hour ∧ r.hour < e))).Pairwise (fun a b => a.1 < b.1)) ∧
    (∀ h v, (h, v) ∈ hourSeries ((filterAll sd sc sr rows).filter
        (fun r => s ≤ r.hour ∧ r.hour < e)) ↔
      ((∃ r ∈ filterAll sd sc sr rows, s ≤ r.hour ∧ r.hour < e ∧ r.hour = h) ∧
        v = hourSum ((filterAll sd sc sr rows).filter
          (fun r => s ≤ r.hour ∧ r.hour < e)) h)) := by
  refine ⟨update_area_chart_mkDf rows hPT sd sc sr s e, pairwise_hourSeries _, ?_⟩
  intro h v
  rw [mem_hourSeries]
  constructor
  · rintro ⟨⟨r, hrW, rfl⟩, hv⟩
    obtain ⟨hrF, hp⟩ := List.mem_filter.mp hrW
    have hp' := of_decide_eq_true hp
    exact ⟨⟨r, hrF, hp'.1, hp'.2, rfl⟩, hv⟩
  · rintro ⟨⟨r, hrF, h1, h2, rfl⟩, hv⟩
    exact ⟨⟨r, List.mem_filter.mpr ⟨hrF, decide_eq_true ⟨h1, h2⟩⟩, rfl⟩, hv⟩

/-- Boundary instantiation of C7: under the default window `[6, 18)` the
hour-6 row is included and the hour-18 row excluded. -/
theorem hour_window_series_exact_witness :
    (6, (4 : Int)) ∈ hourSeries ((filterAll none none none
      [boundaryRow6, boundaryRow18]).filter (fun r => 6 ≤ r.hour ∧ r.hour < 18)) ∧
    ¬ ((18, (9 : Int)) ∈ hourSeries ((filterAll none none none
      [boundaryRow6, boundaryRow18]).filter (fun r => 6 ≤ r.hour ∧ r.hour < 18))) := by
  constructor
  · exact ((hour_window_series_exact [boundaryRow6, boundaryRow18] true
      none none none 6 18).2.2 6 4).mpr
      ⟨⟨boundaryRow6, by decide, by decide, by decide, rfl⟩, by decide⟩
  · intro hmem
    obtain ⟨⟨r, _, _, hlt, hrh⟩, _⟩ := ((hour_window_series_exact
      [boundaryRow6, boundaryRow18] true none none none 6 18).2.2 18 9).mp hmem
    rw [hrh] at hlt
    exact absurd hlt (by omega)

/-- C8: no callback mutates the module-level dataframe: each one copies
`df` (v7.py lines 173, 200, 282) and performs no write to it, so the
process state after any call — and after repeated calls — still holds the
original dataset, and a repeated call reads the same base data. -/
theorem callbacks_do_not_mutate_df (st : AppState) (sd sc sr : Sel) (tr : Nat × Nat) :
    (set_route_options_st st sd sc).2 = st ∧
    (update_dashboard_st st sd sc sr).2 = st ∧
    (update_area_chart_st st sd sc sr tr).2 = st ∧
    (update_dashboard_st (update_dashboard_st st sd sc sr).2 sd sc sr).1
      = (update_dashboard_st st sd sc sr).1 :=
  ⟨rfl, rfl, rfl, rfl⟩

/-- C9: a `[None]` selection is inert at every dimension of every callback
— each call returns exactly what it returns with that selection absent. -/
theorem none_singleton_selection_passthrough (D : Dataset) (s1 s2 : Sel)
    (tr : Nat × Nat) :
    (set_route_options D (some [none]) s1 = set_route_options D none s1 ∧
     set_route_options D s1 (some [none]) = set_route_options D s1 none) ∧
    (update_dashboard D (some [none]) s1 s2 = update_dashboard D none s1 s2 ∧
     update_dashboard D s1 (some [none]) s2 = update_dashboard D s1 none s2 ∧
     update_dashboard D s1 s2 (some [none]) = update_dashboard D s1 s2 none) ∧
    (update_area_chart D (some [none]) s1 s2 tr = update_area_chart D none s1 s2 tr ∧
     update_area_chart D s1 (some [none]) s2 tr = update_area_chart D s1 none s2 tr ∧
     update_area_chart D s1 s2 (some [none]) tr = update_area_chart D s1 s2 none tr) :=
  ⟨⟨rfl, rfl⟩, ⟨rfl, rfl, rfl⟩, rfl, rfl, rfl⟩

/-- C10: the route option list excludes only missing route values — a
whitespace-only route name survives, trimmed to the empty string — whereas
the depot and city option lists contain only nonblank values that arise as
trimmed STRING cells (blank and non-string cells are excluded). -/
theorem route_blank_included_city_depot_blank_excluded
    (rows : List Row) (sd sc : Sel) (s : String) :
    ((∃ r ∈ filterCityDepot sd sc rows, r.routeName = Cell.str s ∧ pyStrip s = "") →
      "" ∈ routesOfRows (filterCityDepot sd sc rows)) ∧
    (∀ p ∈ depot_options (mkDf rows true),
      p.1 ≠ "" ∧ ∃ t, Cell.str t ∈ rows.map Row.depotName ∧ p = (pyStrip t, pyStrip t)) ∧
    (∀ p ∈ city_options (mkDf rows true),
      p.1 ≠ "" ∧ ∃ t, Cell.str t ∈ rows.map Row.cityName ∧ p = (pyStrip t, pyStrip t)) := by
  refine ⟨?_, ?_, ?_⟩
  · rintro ⟨r, hr, hroute, hblank⟩
    refine (mem_routesOfRows _ _).mpr ⟨Cell.str s, ?_, rfl, ?_⟩
    · rw [← hroute]
      exact List.mem_map_of_mem _ hr
    · exact hblank.symm
  · intro p hp
    exact mem_cleanOptions _ p hp
  · intro p hp
    exact mem_cleanOptions _ p hp

/-- Instantiation of C10: a whitespace-only route name yields the empty
string among the route options, while the same dataset's blank depot cell
produces no depot option at all. -/
theorem route_blank_included_city_depot_blank_excluded_witness :
    "" ∈ routesOfRows (filterCityDepot none none [blankRow]) ∧
    depot_options (mkDf [blankRow] true) = [] :=
  ⟨(route_blank_included_city_depot_blank_excluded [blankRow] none none "  ").1
    ⟨blankRow, List.mem_cons_self _ _, rfl, by decide⟩,
   rfl⟩

end V7
